import Mathlib

/-!
Verification of the feature-flag registry and process-bootstrap layer of the
github-mcp-server repository, shallowly embedded in Lean 4.

The Go package `pkg/features` (features.go) is embedded below: the Go map
`map[string]Feature` becomes a function `String → Option Feature`, and the
mutating methods become functions returning the updated state.  Go methods
that return an `error` return `Option String × FeatureSet` (the error, if
any, together with the state of the receiver after the call, mirroring
in-place mutation).
-/

/-- Feature mirrors the Go struct `Feature` of pkg/features/features.go. -/
structure Feature where
  Name : String
  Description : String
  Enabled : Bool
deriving DecidableEq, Repr

/-- FeatureSet mirrors the Go struct `FeatureSet`: a map from name to
Feature plus the `everythingOn` override bit.  The Go map is embedded as a
function from keys to optional entries. -/
structure FeatureSet where
  Features : String → Option Feature
  everythingOn : Bool

/-- NewFeatureSet mirrors `NewFeatureSet`: empty map, override off. -/
def NewFeatureSet : FeatureSet :=
  { Features := fun _ => none, everythingOn := false }

/-- AddFeature mirrors `FeatureSet.AddFeature`: stores a fresh entry under
`name`, overwriting any previous one. -/
def FeatureSet.AddFeature (fs : FeatureSet) (name description : String)
    (enabled : Bool) : FeatureSet :=
  { fs with
    Features := fun k =>
      if k = name then
        some { Name := name, Description := description, Enabled := enabled }
      else fs.Features k }

/-- IsEnabled mirrors `FeatureSet.IsEnabled`: true when the override is on,
otherwise the stored bit, and false for absent names. -/
def FeatureSet.IsEnabled (fs : FeatureSet) (name : String) : Bool :=
  if fs.everythingOn then true
  else
    match fs.Features name with
    | none => false
    | some feature => feature.Enabled

/-- EnableFeature mirrors `FeatureSet.EnableFeature`.  The Go method mutates
the receiver and returns an error; here the pair holds the error (if any)
and the state of the receiver after the call. -/
def FeatureSet.EnableFeature (fs : FeatureSet) (name : String) :
    Option String × FeatureSet :=
  if name = "everything" then
    (none, { fs with everythingOn := true })
  else
    match fs.Features name with
    | none => (some ("feature " ++ name ++ " does not exist"), fs)
    | some feature =>
        (none,
         { fs with
           Features := fun k =>
             if k = name then some { feature with Enabled := true }
             else fs.Features k })

/-- EnableFeatures mirrors `FeatureSet.EnableFeatures`: enables each name in
order, stopping at the first error; the receiver keeps the mutations made
before the failing name. -/
def FeatureSet.EnableFeatures (fs : FeatureSet) (names : List String) :
    Option String × FeatureSet :=
  match names with
  | [] => (none, fs)
  | n :: rest =>
    match fs.EnableFeature n with
    | (some e, fs2) => (some e, fs2)
    | (none, fs2) => fs2.EnableFeatures rest

/-- Spec-side restatement of the `isEnabled` contract, written from the
spec text: true unconditionally under the override, otherwise the stored
enabled value, or false if the name was never registered. -/
def isEnabledSpec (fs : FeatureSet) (name : String) : Bool :=
  if fs.everythingOn then true
  else ((fs.Features name).map Feature.Enabled).getD false

/-- A name is registered when the map has an entry for it. -/
def FeatureSet.registered (fs : FeatureSet) (name : String) : Bool :=
  (fs.Features name).isSome

/-- C1: enabling the sentinel name "everything" succeeds, leaves the
Features table untouched, and afterwards every query, registered or not,
returns true. -/
theorem c1_enable_everything (fs : FeatureSet) :
    (fs.EnableFeature "everything").1 = none ∧
    (fs.EnableFeature "everything").2.Features = fs.Features ∧
    ∀ x : String, (fs.EnableFeature "everything").2.IsEnabled x = true := by
  refine ⟨?_, ?_, ?_⟩ <;>
    simp [FeatureSet.EnableFeature, FeatureSet.IsEnabled]

/-- C2: IsEnabled agrees with the spec-side contract (override wins, else
stored bit, else false, never an error), and a feature just registered with
default d reports exactly d while the override is off. -/
theorem c2_isenabled_contract :
    (∀ (fs : FeatureSet) (name : String),
        fs.IsEnabled name = isEnabledSpec fs name) ∧
    (∀ (fs : FeatureSet) (n desc : String) (d : Bool),
        fs.everythingOn = false →
        (fs.AddFeature n desc d).IsEnabled n = d) := by
  constructor
  · intro fs name
    unfold FeatureSet.IsEnabled isEnabledSpec
    cases h : fs.Features name <;> simp [h]
  · intro fs n desc d hoff
    simp [FeatureSet.IsEnabled, FeatureSet.AddFeature, hoff]

/-- Witness for C2 at a concrete input: a fresh set has the override off,
and a feature registered enabled reports true. -/
theorem c2_isenabled_contract_witness :
    NewFeatureSet.everythingOn = false ∧
    ((NewFeatureSet.AddFeature "repos" "Repository related tools" true).IsEnabled
        "repos") = true :=
  ⟨rfl, c2_isenabled_contract.2 NewFeatureSet "repos" "Repository related tools"
    true rfl⟩

/-- EnableFeature never adds or removes map keys: registration of every
name is preserved, whichever branch is taken. -/
theorem enableFeature_preserves_registered (fs : FeatureSet) (n m : String) :
    (fs.EnableFeature n).2.registered m = fs.registered m := by
  unfold FeatureSet.EnableFeature FeatureSet.registered
  by_cases he : n = "everything"
  · simp [he]
  · simp only [he, if_false]
    cases hf : fs.Features n with
    | none => simp
    | some f =>
      simp only
      by_cases hm : m = n <;> simp [hm, hf]

/-- A query that already reports true keeps reporting true after any
single EnableFeature call. -/
theorem enableFeature_preserves_isEnabled (fs : FeatureSet) (n m : String)
    (h : fs.IsEnabled m = true) : (fs.EnableFeature n).2.IsEnabled m = true := by
  unfold FeatureSet.EnableFeature
  by_cases he : n = "everything"
  · simp [he, FeatureSet.IsEnabled]
  · simp only [he, if_false]
    cases hf : fs.Features n with
    | none => simpa using h
    | some f =>
      unfold FeatureSet.IsEnabled at h ⊢
      by_cases hev : fs.everythingOn
      · simp [hev]
      · simp only [hev, if_false] at h ⊢
        by_cases hm : m = n
        · simp [hm]
        · simp only [hm, if_false]
          exact h

/-- Enabling a valid name (the sentinel or a registered key) succeeds and
makes that name report enabled. -/
theorem enableFeature_valid (fs : FeatureSet) (n : String)
    (h : n = "everything" ∨ fs.registered n = true) :
    (fs.EnableFeature n).1 = none ∧
    (fs.EnableFeature n).2.IsEnabled n = true := by
  unfold FeatureSet.EnableFeature
  by_cases he : n = "everything"
  · simp [he, FeatureSet.IsEnabled]
  · rcases h with h | h
    · exact absurd h he
    · unfold FeatureSet.registered at h
      simp only [he, if_false]
      cases hf : fs.Features n with
      | none => simp [hf] at h
      | some f =>
        refine ⟨rfl, ?_⟩
        unfold FeatureSet.IsEnabled
        by_cases hev : fs.everythingOn <;> simp [hev]

/-- A query that already reports true keeps reporting true after any batch
EnableFeatures call. -/
theorem enableFeatures_preserves_isEnabled (names : List String) :
    ∀ (fs : FeatureSet) (m : String), fs.IsEnabled m = true →
      (fs.EnableFeatures names).2.IsEnabled m = true := by
  induction names with
  | nil => intro fs m h; simpa [FeatureSet.EnableFeatures] using h
  | cons n rest ih =>
    intro fs m h
    unfold FeatureSet.EnableFeatures
    cases hstep : fs.EnableFeature n with
    | mk e fs2 =>
      have h2 : fs2.IsEnabled m = true := by
        have := enableFeature_preserves_isEnabled fs n m h
        rwa [hstep] at this
      cases e with
      | none => simpa using ih fs2 m h2
      | some msg => simpa using h2

/-- C3: a batch enable over pre ++ bad :: post, with every name of pre valid
and bad invalid, surfaces the error of the first invalid name, leaves the
state exactly as it was after processing pre (names after bad are not
processed), and every name of pre is enabled in that state. -/
theorem c3_enableFeatures_short_circuit (pre : List String) :
    ∀ (fs : FeatureSet) (bad : String) (post : List String),
      (∀ n ∈ pre, n = "everything" ∨ fs.registered n = true) →
      bad ≠ "everything" → fs.registered bad = false →
      (fs.EnableFeatures (pre ++ bad :: post)).1 =
          some ("feature " ++ bad ++ " does not exist") ∧
      (fs.EnableFeatures (pre ++ bad :: post)).2 = (fs.EnableFeatures pre).2 ∧
      ∀ n ∈ pre, (fs.EnableFeatures (pre ++ bad :: post)).2.IsEnabled n = true := by
  induction pre with
  | nil =>
    intro fs bad post _ hbad1 hbad2
    have hnone : fs.Features bad = none := by
      unfold FeatureSet.registered at hbad2
      cases h : fs.Features bad with
      | none => rfl
      | some f => simp [h] at hbad2
    refine ⟨?_, ?_, ?_⟩
    · simp [FeatureSet.EnableFeatures, FeatureSet.EnableFeature, hbad1, hnone]
    · simp [FeatureSet.EnableFeatures, FeatureSet.EnableFeature, hbad1, hnone]
    · intro n hn
      exact absurd hn (List.not_mem_nil n)
  | cons a rest ih =>
    intro fs bad post hpre hbad1 hbad2
    have ha : a = "everything" ∨ fs.registered a = true :=
      hpre a (List.mem_cons_self a rest)
    have hvalid := enableFeature_valid fs a ha
    cases hq : fs.EnableFeature a with
    | mk e fs2 =>
      rw [hq] at hvalid
      obtain ⟨he, hen⟩ := hvalid
      have he2 : e = none := he
      subst he2
      have hen2 : fs2.IsEnabled a = true := hen
      have hreg : ∀ m, fs2.registered m = fs.registered m := by
        intro m
        have h := enableFeature_preserves_registered fs a m
        rwa [hq] at h
      have hpre2 : ∀ n ∈ rest, n = "everything" ∨ fs2.registered n = true := by
        intro n hn
        rcases hpre n (List.mem_cons_of_mem a hn) with h | h
        · exact Or.inl h
        · exact Or.inr ((hreg n).trans h)
      have hbad2b : fs2.registered bad = false := (hreg bad).trans hbad2
      obtain ⟨ih1, ih2, ih3⟩ := ih fs2 bad post hpre2 hbad1 hbad2b
      refine ⟨?_, ?_, ?_⟩
      · simp only [List.cons_append, FeatureSet.EnableFeatures, hq]
        exact ih1
      · simp only [List.cons_append, FeatureSet.EnableFeatures, hq]
        exact ih2
      · intro n hn
        simp only [List.cons_append, FeatureSet.EnableFeatures, hq]
        rcases List.mem_cons.mp hn with rfl | hn2
        · exact enableFeatures_preserves_isEnabled (rest ++ bad :: post) fs2 n hen2
        · exact ih3 n hn2

/-- Witness for C3: with feature1 and feature2 registered disabled, the
batch [feature1, non-existent, feature2] fails with the unknown-feature
error and leaves feature1 enabled. -/
theorem c3_enableFeatures_short_circuit_witness :
    (((NewFeatureSet.AddFeature "feature1" "Feature 1" false).AddFeature
        "feature2" "Feature 2" false).EnableFeatures
        (["feature1"] ++ "non-existent" :: ["feature2"])).1 =
      some ("feature " ++ "non-existent" ++ " does not exist") ∧
    (((NewFeatureSet.AddFeature "feature1" "Feature 1" false).AddFeature
        "feature2" "Feature 2" false).EnableFeatures
        (["feature1"] ++ "non-existent" :: ["feature2"])).2.IsEnabled
        "feature1" = true :=
  ⟨(c3_enableFeatures_short_circuit ["feature1"]
      ((NewFeatureSet.AddFeature "feature1" "Feature 1" false).AddFeature
        "feature2" "Feature 2" false) "non-existent" ["feature2"]
      (by decide) (by decide) (by decide)).1,
   (c3_enableFeatures_short_circuit ["feature1"]
      ((NewFeatureSet.AddFeature "feature1" "Feature 1" false).AddFeature
        "feature2" "Feature 2" false) "non-existent" ["feature2"]
      (by decide) (by decide) (by decide)).2.2 "feature1" (by decide)⟩

/-- Go whitespace predicate used by strings.TrimSpace, restricted to the
Latin-1 code points (space, tab, newline, vertical tab, form feed, carriage
return, next line, no-break space); higher Unicode space code points do not
occur in the inputs of this layer. -/
def isSpaceGo (c : Char) : Bool :=
  c = ' ' || c = '\t' || c = '\n' || c = '\x0B' || c = '\x0C' || c = '\r' ||
  c = '\u0085' || c = '\u00A0'

/-- trimSpace embeds Go strings.TrimSpace: drop whitespace from both ends. -/
def trimSpace (s : String) : String :=
  String.mk (((s.data.dropWhile isSpaceGo).reverse.dropWhile isSpaceGo).reverse)

/-- Character-level split on the comma separator; an empty input yields one
empty field, matching Go strings.Split with a single-character separator. -/
def splitCommaChars : List Char → List (List Char)
  | [] => [[]]
  | c :: rest =>
    if c = ',' then [] :: splitCommaChars rest
    else
      match splitCommaChars rest with
      | [] => [[c]]
      | h :: t => (c :: h) :: t

/-- splitComma embeds Go strings.Split(s, ","). -/
def splitComma (s : String) : List String :=
  (splitCommaChars s.data).map (fun l => String.mk l)

/-- The name-list resolution step of initFeatures (src/unnamed/part_000):
a non-empty GITHUB_FEATURES value replaces the flag-provided list with its
comma-split, whitespace-trimmed entries; os.Getenv reports the empty string
when the variable is unset. -/
def resolvedFeatures (envFeats : String) (passedFeatures : List String) :
    List String :=
  if envFeats ≠ "" then (splitComma envFeats).map trimSpace
  else passedFeatures

/-- The fixed feature catalog built at the top of initFeatures. -/
def initFeatureSet : FeatureSet :=
  (((((NewFeatureSet.AddFeature "repos" "Repository related tools"
    false).AddFeature "issues" "Issues related tools"
    false).AddFeature "search" "Search related tools"
    false).AddFeature "pull_requests" "Pull request related tools"
    false).AddFeature "code_security" "Code security related tools"
    false).AddFeature "experiments"
    "Experimental features that are not considered stable yet" false

/-- initFeatures embeds the Go initFeatures: build the catalog, resolve the
name list (environment over flags), then enable the requested names,
returning the first enable error if any. -/
def initFeatures (envFeats : String) (passedFeatures : List String) :
    Except String FeatureSet :=
  match initFeatureSet.EnableFeatures (resolvedFeatures envFeats passedFeatures) with
  | (some e, _) => Except.error e
  | (none, fs) => Except.ok fs

/-- C4: a non-empty environment value replaces the flag list wholesale with
its comma-split trimmed entries, an empty or unset environment value leaves
the flag list unchanged, and the example value resolves to exactly
[repos, issues, search]. -/
theorem c4_env_overrides_flags :
    (∀ (env : String) (pf : List String), env ≠ "" →
        resolvedFeatures env pf = (splitComma env).map trimSpace) ∧
    (∀ pf : List String, resolvedFeatures "" pf = pf) ∧
    (∀ pf : List String,
        resolvedFeatures "repos, issues ,search" pf =
          ["repos", "issues", "search"]) ∧
    (∀ pf : List String,
        initFeatures "repos, issues ,search" pf =
          initFeatures "" ["repos", "issues", "search"]) := by
  refine ⟨?_, ?_, ?_, ?_⟩
  · intro env pf h
    simp [resolvedFeatures, h]
  · intro pf
    simp [resolvedFeatures]
  · intro pf
    unfold resolvedFeatures
    rw [if_pos (by decide : ("repos, issues ,search" : String) ≠ "")]
    decide
  · intro pf
    have h1 : resolvedFeatures "repos, issues ,search" pf =
        ["repos", "issues", "search"] := by
      unfold resolvedFeatures
      rw [if_pos (by decide : ("repos, issues ,search" : String) ≠ "")]
      decide
    have h2 : resolvedFeatures "" ["repos", "issues", "search"] =
        ["repos", "issues", "search"] := by
      simp [resolvedFeatures]
    unfold initFeatures
    rw [h1, h2]

/-- Witness for C4: the example environment value is non-empty and resolves
through the split-and-trim path. -/
theorem c4_env_overrides_flags_witness :
    resolvedFeatures "repos, issues ,search" ["code_security"] =
      (splitComma "repos, issues ,search").map trimSpace :=
  c4_env_overrides_flags.1 "repos, issues ,search" ["code_security"]
    (by decide)

/-- Byte chunks written by the protocol server. -/
abbrev Bytes := List Nat

/-- Observable sink state of the decorated output path: the chunks that
reached standard output and the chunks mirrored to the log sink. -/
structure IOState where
  out : List Bytes
  log : List Bytes
deriving DecidableEq, Repr

/-- A writer takes a chunk and the sink state and returns the Go (n, err)
pair of io.Writer.Write together with the new sink state. -/
abbrev GoWriter := Bytes → IOState → (Nat × Option String) × IOState

/-- The raw standard-output stream: appends the chunk and reports its full
length as written. -/
def stdoutWriter : GoWriter := fun p s =>
  ((p.length, none), { s with out := s.out ++ [p] })

/-- Modelled from the spec: the transcript-logging decorator built by
pkg/log NewIOLogger (its source is not under src/) mirrors every written
byte to the log sink before passing it through unchanged. -/
def IOLoggerWrite (w : GoWriter) : GoWriter := fun p s =>
  w p { s with log := s.log ++ [p] }

/-- JSONPrettyPrintWriter mirrors the struct of src/unnamed/part_000; the
indent field stands for the external encoding/json json.Indent call with
tab indentation, which either fails on unparseable input or produces the
re-indented bytes. -/
structure JSONPrettyPrintWriter where
  indent : Bytes → Except String Bytes
  writer : GoWriter

/-- Write mirrors JSONPrettyPrintWriter.Write: on indent failure report
(0, err) and write nothing; on success forward the indented buffer to the
underlying writer and return its result. -/
def JSONPrettyPrintWriter.Write (j : JSONPrettyPrintWriter) : GoWriter :=
  fun p s =>
    match j.indent p with
    | Except.error e => ((0, some e), s)
    | Except.ok pretty => j.writer pretty s

/-- The output-stream decoration of runStdioServer: transcript logging is
applied first (innermost), pretty-printing second (outermost). -/
def decorateOut (logCommands prettyPrintJSON : Bool)
    (indent : Bytes → Except String Bytes) : GoWriter :=
  let out1 := if logCommands then IOLoggerWrite stdoutWriter else stdoutWriter
  if prettyPrintJSON then (JSONPrettyPrintWriter.mk indent out1).Write else out1

/-- Counterexample to C5: with both decorators on and an indent step that
expands the chunk, the log sink receives the expanded bytes, not the
original compact ones: logging sits inside pretty-printing, so it only
sees the already re-indented buffer. -/
theorem c5_log_gets_pretty_bytes_counterexample :
    (decorateOut true true (fun b => Except.ok (b ++ b)) [1, 2]
        { out := [], log := [] }).2.log ≠ [[1, 2]] ∧
    (decorateOut true true (fun b => Except.ok (b ++ b)) [1, 2]
        { out := [], log := [] }).2.log = [[1, 2, 1, 2]] := by
  constructor
  · decide
  · decide

/-- C5 as the code has it: with both options on, the output stream is the
pretty-print decorator wrapped around the logging decorator wrapped around
standard output, and hence a successful write of p with indented form q
sends q to standard output and mirrors q (the expanded bytes, not the
original p) to the log sink. -/
theorem c5_decoration_order (indent : Bytes → Except String Bytes)
    (p q : Bytes) (s : IOState) (h : indent p = Except.ok q) :
    decorateOut true true indent =
      (JSONPrettyPrintWriter.mk indent (IOLoggerWrite stdoutWriter)).Write ∧
    decorateOut true true indent p s =
      ((q.length, none), { out := s.out ++ [q], log := s.log ++ [q] }) := by
  constructor
  · rfl
  · simp [decorateOut, JSONPrettyPrintWriter.Write, IOLoggerWrite,
      stdoutWriter, h]

/-- Witness for C5 at a concrete input: an expanding indent step on the
chunk [7] routes the expanded chunk to both sinks. -/
theorem c5_decoration_order_witness :
    decorateOut true true (fun b => Except.ok (0 :: b)) [7]
        { out := [], log := [] } =
      (([0, 7].length, none), { out := [[0, 7]], log := [[0, 7]] }) :=
  (c5_decoration_order (fun b => Except.ok (0 :: b)) [7] [0, 7]
    { out := [], log := [] } rfl).2

/-- C7: a Write through the pretty-print decorator fails synchronously,
reporting zero bytes written and leaving the sinks untouched, exactly when
the indent step fails; when the indent step succeeds the indented form is
handed to the underlying writer. -/
theorem c7_prettyprint_write_contract (ind : Bytes → Except String Bytes)
    (w : GoWriter) (p : Bytes) (s : IOState) :
    (∀ e, ind p = Except.error e →
        (JSONPrettyPrintWriter.mk ind w).Write p s = ((0, some e), s)) ∧
    (∀ q, ind p = Except.ok q →
        (JSONPrettyPrintWriter.mk ind w).Write p s = w q s) := by
  constructor
  · intro e he
    simp [JSONPrettyPrintWriter.Write, he]
  · intro q hq
    simp [JSONPrettyPrintWriter.Write, hq]

/-- Witness for C7 at a concrete input: an indent step that rejects the
empty chunk makes Write return the error with zero bytes and an untouched
sink state. -/
theorem c7_prettyprint_write_contract_witness :
    (JSONPrettyPrintWriter.mk
        (fun b => if b = [] then Except.error "unexpected end of JSON input"
                  else Except.ok b)
        stdoutWriter).Write [] { out := [], log := [] } =
      ((0, some "unexpected end of JSON input"), { out := [], log := [] }) :=
  (c7_prettyprint_write_contract
      (fun b => if b = [] then Except.error "unexpected end of JSON input"
                else Except.ok b)
      stdoutWriter [] { out := [], log := [] }).1
    "unexpected end of JSON input" rfl

/-- Observable outcome of a process run: exit status plus the lines printed
to standard output and to standard error. -/
structure ProcResult where
  exitCode : Nat
  stdout : List String
  stderr : List String
deriving DecidableEq, Repr

/-- Models Go stdlib log.Fatal as called through stdlog in
src/unnamed/part_000: the standard logger writes to standard error, then
the process exits with status 1. -/
def stdlogFatal (msg : String) : ProcResult :=
  { exitCode := 1, stdout := [], stderr := [msg] }

/-- The points at which the Run function of the stdio command stops: its
three stdlog.Fatal call sites, or the clean return of runStdioServer. -/
inductive StdioRunOutcome where
  | loggerInitErr (e : String)
  | featuresInitErr (e : String)
  | serverErr (e : String)
  | clean
deriving DecidableEq, Repr

/-- stdioCmdRun embeds the observable behaviour of the Run function of the
stdio command: every failure goes through stdlog.Fatal, and the clean path
falls through to a normal exit 0. -/
def stdioCmdRun : StdioRunOutcome → ProcResult
  | StdioRunOutcome.loggerInitErr e =>
      stdlogFatal ("Failed to initialize logger:" ++ e)
  | StdioRunOutcome.featuresInitErr e =>
      stdlogFatal ("Failed to initialize features:" ++ e)
  | StdioRunOutcome.serverErr e =>
      stdlogFatal ("failed to run stdio server:" ++ e)
  | StdioRunOutcome.clean => { exitCode := 0, stdout := [], stderr := [] }

/-- mainRun embeds main: an error returned by rootCmd.Execute is printed
to standard output with fmt.Println and the process exits 1; otherwise the
process exits 0. -/
def mainRun : Option String → ProcResult
  | some e => { exitCode := 1, stdout := [e], stderr := [] }
  | none => { exitCode := 0, stdout := [], stderr := [] }

/-- Counterexample to C8: the fatal failure of the stdio server run exits
non-zero but prints the error to standard error, with nothing on standard
output. -/
theorem c8_fatal_prints_to_stderr_counterexample :
    (stdioCmdRun (StdioRunOutcome.serverErr "boom")).exitCode ≠ 0 ∧
    (stdioCmdRun (StdioRunOutcome.serverErr "boom")).stdout = [] ∧
    (stdioCmdRun (StdioRunOutcome.serverErr "boom")).stderr =
      ["failed to run stdio server:boom"] := by
  refine ⟨by decide, rfl, rfl⟩

/-- C8 as the code has it: fatal failures inside the stdio command exit 1
and report on standard error with standard output empty; an error returned
by rootCmd.Execute is printed to standard output and exits 1; clean
shutdown exits 0. -/
theorem c8_exit_behaviour (e : String) :
    stdioCmdRun (StdioRunOutcome.loggerInitErr e) =
      { exitCode := 1, stdout := [],
        stderr := ["Failed to initialize logger:" ++ e] } ∧
    stdioCmdRun (StdioRunOutcome.featuresInitErr e) =
      { exitCode := 1, stdout := [],
        stderr := ["Failed to initialize features:" ++ e] } ∧
    stdioCmdRun (StdioRunOutcome.serverErr e) =
      { exitCode := 1, stdout := [],
        stderr := ["failed to run stdio server:" ++ e] } ∧
    mainRun (some e) = { exitCode := 1, stdout := [e], stderr := [] } ∧
    mainRun none = { exitCode := 0, stdout := [], stderr := [] } ∧
    stdioCmdRun StdioRunOutcome.clean =
      { exitCode := 0, stdout := [], stderr := [] } := by
  refine ⟨rfl, rfl, rfl, rfl, rfl, rfl⟩

/-- Counterexample to C6: when the sentinel name itself has been registered
as an ordinary feature, enabling it flips the override bit instead of its
stored enabled bit, so the claim fails for the registered name
"everything". -/
theorem c6_sentinel_registered_counterexample :
    (NewFeatureSet.AddFeature "everything" "sentinel" false).everythingOn
        = false ∧
    (NewFeatureSet.AddFeature "everything" "sentinel" false).registered
        "everything" = true ∧
    ((NewFeatureSet.AddFeature "everything" "sentinel"
        false).EnableFeature "everything").2.everythingOn = true ∧
    ((NewFeatureSet.AddFeature "everything" "sentinel"
        false).EnableFeature "everything").2.Features "everything" =
      some { Name := "everything", Description := "sentinel",
             Enabled := false } := by
  refine ⟨rfl, by decide, rfl, by decide⟩

/-- C6 amended: with the override unset, enabling a registered name other
than the sentinel succeeds, sets exactly that entry's enabled bit, and
leaves every other entry and the override bit unchanged. -/
theorem c6_enable_frame (fs : FeatureSet) (n : String) (f : Feature)
    (hev : fs.everythingOn = false) (hne : n ≠ "everything")
    (hf : fs.Features n = some f) :
    (fs.EnableFeature n).1 = none ∧
    (fs.EnableFeature n).2.Features n = some { f with Enabled := true } ∧
    (∀ m, m ≠ n → (fs.EnableFeature n).2.Features m = fs.Features m) ∧
    (fs.EnableFeature n).2.everythingOn = false := by
  refine ⟨?_, ?_, ?_, ?_⟩
  · simp [FeatureSet.EnableFeature, hne, hf]
  · simp [FeatureSet.EnableFeature, hne, hf]
  · intro m hm
    simp [FeatureSet.EnableFeature, hne, hf, hm]
  · simp [FeatureSet.EnableFeature, hne, hf, hev]

/-- Witness for C6: in the startup catalog, enabling code_security leaves
the issues entry untouched and issues still reports disabled. -/
theorem c6_enable_frame_witness :
    (initFeatureSet.EnableFeature "code_security").2.Features "issues" =
      initFeatureSet.Features "issues" ∧
    (initFeatureSet.EnableFeature "code_security").2.IsEnabled "issues"
      = false :=
  ⟨(c6_enable_frame initFeatureSet "code_security"
      { Name := "code_security", Description := "Code security related tools",
        Enabled := false } rfl (by decide) rfl).2.2.1 "issues" (by decide),
   by decide⟩

/-- Every map entry is stored under the key equal to its Name field. -/
def FeatureSet.WellNamed (fs : FeatureSet) : Prop :=
  ∀ k f, fs.Features k = some f → f.Name = k

/-- C9: the key-equals-Name invariant holds for the empty set and is
preserved by AddFeature and by EnableFeature. -/
theorem c9_wellnamed_invariant :
    NewFeatureSet.WellNamed ∧
    (∀ (fs : FeatureSet) (n d : String) (e : Bool),
        fs.WellNamed → (fs.AddFeature n d e).WellNamed) ∧
    (∀ (fs : FeatureSet) (n : String),
        fs.WellNamed → (fs.EnableFeature n).2.WellNamed) := by
  refine ⟨?_, ?_, ?_⟩
  · intro k f h
    simp [NewFeatureSet] at h
  · intro fs n d e hw k f h
    unfold FeatureSet.AddFeature at h
    simp only at h
    by_cases hk : k = n
    · rw [if_pos hk] at h
      cases h
      exact hk.symm
    · rw [if_neg hk] at h
      exact hw k f h
  · intro fs n hw k f h
    unfold FeatureSet.EnableFeature at h
    by_cases he : n = "everything"
    · rw [if_pos he] at h
      exact hw k f h
    · rw [if_neg he] at h
      cases hg : fs.Features n with
      | none =>
        rw [hg] at h
        exact hw k f h
      | some g =>
        rw [hg] at h
        simp only at h
        by_cases hk : k = n
        · rw [if_pos hk] at h
          cases h
          rw [hk]
          exact hw n g hg
        · rw [if_neg hk] at h
          exact hw k f h

/-- Witness for C9: the invariant transported through AddFeature from the
empty set. -/
theorem c9_wellnamed_invariant_witness :
    (NewFeatureSet.AddFeature "repos" "Repository related tools"
        false).WellNamed :=
  c9_wellnamed_invariant.2.1 NewFeatureSet "repos" "Repository related tools"
    false c9_wellnamed_invariant.1

/-- C10: enabling a name that is neither the sentinel nor a registered key
returns the unknown-feature error and leaves the set exactly as it was. -/
theorem c10_failed_enable_leaves_state (fs : FeatureSet) (name : String)
    (h1 : name ≠ "everything") (h2 : fs.Features name = none) :
    fs.EnableFeature name =
      (some ("feature " ++ name ++ " does not exist"), fs) := by
  unfold FeatureSet.EnableFeature
  rw [if_neg h1, h2]

/-- Witness for C10: enabling the unregistered name gists on the startup
catalog fails and returns the catalog unchanged. -/
theorem c10_failed_enable_leaves_state_witness :
    initFeatureSet.EnableFeature "gists" =
      (some ("feature " ++ "gists" ++ " does not exist"), initFeatureSet) :=
  c10_failed_enable_leaves_state initFeatureSet "gists" (by decide) rfl
